import Mathlib

/-!
Shallow embedding of the PiSSM repository (files
`NCLT/unknown_dynamics/NCLTSysModel.py` and `NCLT/unknown_dynamics/PiSSM.py`).

Tensors are modelled over `ℚ`; a 1-D tensor is a `List ℚ`, and a `[B, T, D]`
tensor is a function `Fin B → Fin T → List ℚ` whose last axis is the list.
Gaussian sampling `torch.normal(zeros(d), s)` is modelled by the
reparameterization `s * g` where `g` is an externally supplied standard-normal
draw, so a zero scale yields the exactly-zero noise the library produces.
The floating-point `log` is kept abstract as a parameter `rlog : ℚ → ℚ`
(together with the constant `log2pi` for `np.log(2 * np.pi)`), since the
claims under study are algebraic in it.
-/

namespace PiSSMModel

/-- Model of `torch.squeeze` on the 1-D initial-state tensors: removing size-1
dimensions never changes the stored coordinate values, so on the list of
coordinates it is the identity. -/
def squeeze (v : List ℚ) : List ℚ := v

/-- State of the Python `SystemModel` object (`NCLTSysModel.py`): the
transition function `f`, emission `h`, noise scales `q` and `r`, dimensions
`m` and `n`, horizon `T`, and the stored initial moments `m1x_0`, `m2x_0`. -/
structure SystemModel where
  f : List ℚ → List ℚ
  h : List ℚ → List ℚ
  q : ℚ
  r : ℚ
  m : ℕ
  n : ℕ
  T : ℕ
  m1x_0 : List ℚ
  m2x_0 : List ℚ

/-- Model of `SystemModel.InitSequence`: overwrites the stored initial moments with the
squeezed arguments. -/
def InitSequence (sm : SystemModel) (i1 i2 : List ℚ) : SystemModel :=
  { sm with m1x_0 := squeeze i1, m2x_0 := squeeze i2 }

/-- One state-evolution step of `GenerateSequence`: when `q == 0` the code
takes the noiseless branch `xt = f(x_prev)`; otherwise it adds the process
noise vector `eq` to `f(x_prev)` coordinatewise. -/
def stateStep (sm : SystemModel) (x_prev eqv : List ℚ) : List ℚ :=
  if sm.q = 0 then sm.f x_prev
  else List.zipWith (· + ·) (sm.f x_prev) eqv

/-- One emission step of `GenerateSequence`: `yt = h(xt)` plus the observation
noise vector `er`, added coordinatewise (this branch is unconditional in the
code). -/
def obsStep (sm : SystemModel) (xt erv : List ℚ) : List ℚ :=
  List.zipWith (· + ·) (sm.h xt) erv

/-- The process-noise draw at time `t`: `torch.normal(zeros(m), q)`, i.e.
`q` times a standard-normal draw per coordinate. -/
def procNoise (sm : SystemModel) (gq : ℕ → ℕ → ℚ) (t : ℕ) : List ℚ :=
  (List.range sm.m).map fun i => sm.q * gq t i

/-- The observation-noise draw at time `t`: `torch.normal(zeros(n), r)`. -/
def obsNoise (sm : SystemModel) (gr : ℕ → ℕ → ℚ) (t : ℕ) : List ℚ :=
  (List.range sm.n).map fun i => sm.r * gr t i

/-- The loop body of `GenerateSequence`, iterating `k` further steps starting
at time index `t` with previous state `x_prev`; returns the columns of the
state trajectory `x` and of the observation trajectory `y` in time order. -/
def genAux (sm : SystemModel) (gq gr : ℕ → ℕ → ℚ) :
    ℕ → ℕ → List ℚ → List (List ℚ) × List (List ℚ)
  | 0, _, _ => ([], [])
  | k + 1, t, x_prev =>
    let xt := stateStep sm x_prev (procNoise sm gq t)
    let yt := obsStep sm xt (obsNoise sm gr t)
    let rest := genAux sm gq gr k (t + 1) xt
    (xt :: rest.1, yt :: rest.2)

/-- Model of `SystemModel.GenerateSequence`: starting from `x_prev = m1x_0`, iterate
`T` steps of state evolution and emission; the result's first component lists
the columns `x[:, t]` and its second the columns `y[:, t]`. `gq` and `gr`
supply the standard-normal draws consumed by the two noise sources. -/
def GenerateSequence (sm : SystemModel) (gq gr : ℕ → ℕ → ℚ) (T : ℕ) :
    List (List ℚ) × List (List ℚ) :=
  genAux sm gq gr T 0 sm.m1x_0

lemma genAux_length_fst (sm : SystemModel) (gq gr : ℕ → ℕ → ℚ) :
    ∀ k t x_prev, ((genAux sm gq gr k t x_prev).1).length = k := by
  intro k
  induction k with
  | zero => intro t x_prev; simp [genAux]
  | succ k ih => intro t x_prev; simp [genAux, ih]

lemma genAux_get?_of_q_zero (sm : SystemModel) (gq gr : ℕ → ℕ → ℚ)
    (hq : sm.q = 0) :
    ∀ k t x_prev j, j < k →
      ((genAux sm gq gr k t x_prev).1).get? j = some (sm.f^[j + 1] x_prev) := by
  intro k
  induction k with
  | zero => intro t x_prev j hj; omega
  | succ k ih =>
    intro t x_prev j hj
    cases j with
    | zero =>
      simp [genAux, stateStep, hq, Function.iterate_one]
    | succ j =>
      have hj' : j < k := by omega
      have := ih (t + 1) (stateStep sm x_prev (procNoise sm gq t)) j hj'
      simp only [genAux, List.get?_cons_succ]
      rw [this, stateStep, if_pos hq, ← Function.iterate_succ_apply]

/-- Claim C1: with zero process-noise scale (`q = 0`), `GenerateSequence`
produces states deterministically: for every transition function, horizon
`T ≥ 1` and stored initial state, column `t` of the state trajectory is the
`(t+1)`-fold iterate of `f` on `m1x_0`, for any values of the noise streams
(no stochastic perturbation of the state). -/
theorem generateSequence_q_zero_deterministic
    (sm : SystemModel) (gq gr : ℕ → ℕ → ℚ) (T t : ℕ)
    (hq : sm.q = 0) (ht : t < T) :
    ((GenerateSequence sm gq gr T).1).get? t = some (sm.f^[t + 1] sm.m1x_0) :=
  genAux_get?_of_q_zero sm gq gr hq T 0 sm.m1x_0 t ht

/-- Witness for C1: a concrete two-dimensional doubling system with `q = 0`,
`T = 3`, evaluated at column `t = 2`. -/
theorem generateSequence_q_zero_deterministic_witness :
    (({ f := fun v => v.map (2 * ·), h := id, q := 0, r := 0,
        m := 2, n := 2, T := 3, m1x_0 := [1, 5], m2x_0 := [0, 0] } :
          SystemModel).q = 0) ∧ (2 < 3) ∧
    ((GenerateSequence
        { f := fun v => v.map (2 * ·), h := id, q := 0, r := 0,
          m := 2, n := 2, T := 3, m1x_0 := [1, 5], m2x_0 := [0, 0] }
        (fun _ _ => 7) (fun _ _ => 9) 3).1).get? 2 =
      some ((fun v : List ℚ => v.map (2 * ·))^[2 + 1] [1, 5]) :=
  ⟨rfl, by norm_num,
    generateSequence_q_zero_deterministic
      { f := fun v => v.map (2 * ·), h := id, q := 0, r := 0,
        m := 2, n := 2, T := 3, m1x_0 := [1, 5], m2x_0 := [0, 0] }
      (fun _ _ => 7) (fun _ _ => 9) 3 2 rfl (by norm_num)⟩

/-- The concrete instance of claim C2: `m = 2`, `n = 1`, `T = 5`, `q = 0`,
`r = 0`, `f` the identity, `h` the projection onto the first coordinate
(`x[..., :1]`), initial state `[1, 0]`. -/
def demoModel : SystemModel :=
  { f := id, h := fun v => v.take 1, q := 0, r := 0,
    m := 2, n := 1, T := 5, m1x_0 := [1, 0], m2x_0 := [0, 0] }

/-- Claim C2: on the concrete instance `demoModel`, `GenerateSequence` over
horizon 5 returns, for every value of the noise streams, the exact state
tensor `[[1,1,1,1,1],[0,0,0,0,0]]` (given here both as the list of columns
`x[:, t]` and, via transposition, in the row form of the claim) and the exact
observation tensor `[[1,1,1,1,1]]`: no noise lands on either path. -/
theorem generateSequence_demo_exact (gq gr : ℕ → ℕ → ℚ) :
    (GenerateSequence demoModel gq gr 5).1 =
        [[1, 0], [1, 0], [1, 0], [1, 0], [1, 0]] ∧
    ((GenerateSequence demoModel gq gr 5).1).transpose =
        [[1, 1, 1, 1, 1], [0, 0, 0, 0, 0]] ∧
    (GenerateSequence demoModel gq gr 5).2 = [[1], [1], [1], [1], [1]] ∧
    ((GenerateSequence demoModel gq gr 5).2).transpose = [[1, 1, 1, 1, 1]] := by
  have hx : (GenerateSequence demoModel gq gr 5).1 =
      [[1, 0], [1, 0], [1, 0], [1, 0], [1, 0]] := by
    simp [GenerateSequence, genAux, stateStep, obsStep, demoModel,
      procNoise, obsNoise, List.range_succ]
  have hy : (GenerateSequence demoModel gq gr 5).2 = [[1], [1], [1], [1], [1]] := by
    simp [GenerateSequence, genAux, stateStep, obsStep, demoModel,
      procNoise, obsNoise, List.range_succ]
  refine ⟨hx, ?_, hy, ?_⟩
  · rw [hx]; rfl
  · rw [hy]; rfl

/-!
Model of `SystemModel.GenerateBatch`: it reads `initConditions = self.m1x_0` once before
the loop; then, for each trajectory index `i`, optionally replaces it by the
random draw `torch.rand_like(self.m1x_0) * variance`, calls
`InitSequence(initConditions, self.m2x_0)` (mutating the stored moments) and
`GenerateSequence`, and records `self.y` as `Input[i]` and `self.x` as
`Target[i]`. `rinit i` supplies the uniform draw of iteration `i` and
`variance` the module-level scale imported from `parameters`; `gq i`/`gr i`
are the Gaussian draws consumed by the `i`-th call to `GenerateSequence`. -/

/-- The loop of `GenerateBatch`, running `k` more iterations starting at
trajectory index `i`, threading the mutable `SystemModel` object; returns
`(Input, Target, final model state)`. -/
def genBatchAux (initConditions : List ℚ) (randomInit : Bool)
    (variance : ℚ) (rinit : ℕ → List ℚ) (gq gr : ℕ → ℕ → ℕ → ℚ) (T : ℕ) :
    ℕ → ℕ → SystemModel →
      List (List (List ℚ)) × List (List (List ℚ)) × SystemModel
  | 0, _, sm => ([], [], sm)
  | k + 1, i, sm =>
    let ic := if randomInit then (rinit i).map (· * variance) else initConditions
    let sm1 := InitSequence sm ic sm.m2x_0
    let traj := GenerateSequence sm1 (gq i) (gr i) T
    let rest := genBatchAux initConditions randomInit variance rinit gq gr T k (i + 1) sm1
    (traj.2 :: rest.1, traj.1 :: rest.2.1, rest.2.2)

/-- Model of `SystemModel.GenerateBatch(size, T, randomInit)`. -/
def GenerateBatch (sm : SystemModel) (size T : ℕ) (randomInit : Bool)
    (variance : ℚ) (rinit : ℕ → List ℚ) (gq gr : ℕ → ℕ → ℕ → ℚ) :
    List (List (List ℚ)) × List (List (List ℚ)) × SystemModel :=
  genBatchAux sm.m1x_0 randomInit variance rinit gq gr T size 0 sm

lemma initSequence_idem (sm : SystemModel) (ic : List ℚ) :
    InitSequence (InitSequence sm ic sm.m2x_0) ic
        (InitSequence sm ic sm.m2x_0).m2x_0 =
      InitSequence sm ic sm.m2x_0 := rfl

lemma genBatchAux_target_get?_false (initConditions : List ℚ)
    (variance : ℚ) (rinit : ℕ → List ℚ) (gq gr : ℕ → ℕ → ℕ → ℚ) (T : ℕ) :
    ∀ k i sm j, j < k →
      ((genBatchAux initConditions false variance rinit gq gr T k i sm).2.1).get? j
        = some (GenerateSequence
            (InitSequence sm initConditions sm.m2x_0) (gq (i + j)) (gr (i + j)) T).1 := by
  intro k
  induction k with
  | zero => intro i sm j hj; omega
  | succ k ih =>
    intro i sm j hj
    cases j with
    | zero => simp [genBatchAux]
    | succ j =>
      have hj' : j < k := by omega
      have h2 := ih (i + 1) (InitSequence sm initConditions sm.m2x_0) j hj'
      rw [initSequence_idem] at h2
      have harith : i + 1 + j = i + (j + 1) := by omega
      rw [harith] at h2
      simpa [genBatchAux] using h2

/-- Claim C6: `GenerateBatch` with `randomInit = False` uses the same initial
state — the stored `m1x_0`, as installed by `InitSequence` — for every
trajectory of the batch: trajectory `i` of the returned `Target` is generated
by `GenerateSequence` from the one model state
`InitSequence sm sm.m1x_0 sm.m2x_0`, which does not depend on `i`, so all
trajectories start from an identical initial state. -/
theorem generateBatch_fixed_init (sm : SystemModel) (size T : ℕ)
    (variance : ℚ) (rinit : ℕ → List ℚ) (gq gr : ℕ → ℕ → ℕ → ℚ)
    (i : ℕ) (hi : i < size) :
    ((GenerateBatch sm size T false variance rinit gq gr).2.1).get? i
      = some (GenerateSequence
          (InitSequence sm sm.m1x_0 sm.m2x_0) (gq i) (gr i) T).1 := by
  have := genBatchAux_target_get?_false sm.m1x_0 variance rinit gq gr T size 0 sm i hi
  simpa [GenerateBatch] using this

/-- Witness for C6: a batch of two trajectories of the doubling system;
the second trajectory (index 1) is generated from the stored initial state. -/
theorem generateBatch_fixed_init_witness :
    (1 < 2) ∧
    ((GenerateBatch
        { f := fun v => v.map (2 * ·), h := id, q := 0, r := 0,
          m := 1, n := 1, T := 2, m1x_0 := [3], m2x_0 := [0] }
        2 2 false 1 (fun _ => [5]) (fun _ _ _ => 0) (fun _ _ _ => 0)).2.1).get? 1
      = some (GenerateSequence
          (InitSequence
            { f := fun v => v.map (2 * ·), h := id, q := 0, r := 0,
              m := 1, n := 1, T := 2, m1x_0 := [3], m2x_0 := [0] }
            [3] [0])
          (fun _ _ => 0) (fun _ _ => 0) 2).1 :=
  ⟨by norm_num,
    generateBatch_fixed_init
      { f := fun v => v.map (2 * ·), h := id, q := 0, r := 0,
        m := 1, n := 1, T := 2, m1x_0 := [3], m2x_0 := [0] }
      2 2 1 (fun _ => [5]) (fun _ _ _ => 0) (fun _ _ _ => 0) 1 (by norm_num)⟩

lemma genBatchAux_final_m1x_0_true (initConditions : List ℚ)
    (variance : ℚ) (rinit : ℕ → List ℚ) (gq gr : ℕ → ℕ → ℕ → ℚ) (T : ℕ) :
    ∀ k i sm,
      ((genBatchAux initConditions true variance rinit gq gr T (k + 1) i sm).2.2).m1x_0
        = squeeze ((rinit (i + k)).map (· * variance)) := by
  intro k
  induction k with
  | zero => intro i sm; simp [genBatchAux, InitSequence]
  | succ k ih =>
    intro i sm
    have h2 := ih (i + 1)
      (InitSequence sm ((rinit i).map (· * variance)) sm.m2x_0)
    have harith : i + 1 + k = i + (k + 1) := by omega
    rw [harith] at h2
    simpa [genBatchAux] using h2

/-- Claim C10: `GenerateBatch` mutates the stored initial state: after a call
with `randomInit = True` and `size ≥ 1`, the model's `m1x_0` equals the
(squeezed) random initial conditions of the last generated trajectory —
`rand_like(m1x_0) * variance` at index `size - 1` — rather than the
originally configured initial mean; being part of the returned model state,
this changed value is what any later call reads. -/
theorem generateBatch_mutates_m1x_0 (sm : SystemModel) (size T : ℕ)
    (variance : ℚ) (rinit : ℕ → List ℚ) (gq gr : ℕ → ℕ → ℕ → ℚ)
    (hsize : 1 ≤ size) :
    ((GenerateBatch sm size T true variance rinit gq gr).2.2).m1x_0
      = squeeze ((rinit (size - 1)).map (· * variance)) := by
  obtain ⟨k, rfl⟩ : ∃ k, size = k + 1 := ⟨size - 1, by omega⟩
  have := genBatchAux_final_m1x_0_true sm.m1x_0 variance rinit gq gr T k 0 sm
  simpa [GenerateBatch] using this

/-- Witness for C10: a two-trajectory random-init batch; the stored `m1x_0`
afterwards is the draw of trajectory index 1 scaled by the variance. -/
theorem generateBatch_mutates_m1x_0_witness :
    (1 ≤ 2) ∧
    ((GenerateBatch
        { f := fun v => v.map (2 * ·), h := id, q := 0, r := 0,
          m := 1, n := 1, T := 2, m1x_0 := [3], m2x_0 := [0] }
        2 2 true 10 (fun j : ℕ => [(j : ℚ)]) (fun _ _ _ => 0) (fun _ _ _ => 0)).2.2).m1x_0
      = squeeze (((fun j : ℕ => [(j : ℚ)]) (2 - 1)).map (· * 10)) :=
  ⟨by norm_num,
    generateBatch_mutates_m1x_0
      { f := fun v => v.map (2 * ·), h := id, q := 0, r := 0,
        m := 1, n := 1, T := 2, m1x_0 := [3], m2x_0 := [0] }
      2 2 10 (fun j : ℕ => [(j : ℚ)]) (fun _ _ _ => 0) (fun _ _ _ => 0) (by norm_num)⟩

end PiSSMModel

namespace PiSSM

/-!
Embedding of the loss functions of `PiSSM.py` (class `PiSSM`). A `[B, T, D]`
tensor is `Fin B → Fin T → List ℚ` (last axis a list); the slicings
`pred_mean_var[..., :output_dim]` and `[..., output_dim:]` are `take`/`drop`.
The floating-point logarithm `tf.math.log` is the abstract parameter `rlog`,
and `np.log(2 * np.pi)` the abstract constant `log2pi`. -/

/-- The literal `1e-8` added to the predicted variance. -/
def eps : ℚ := 1 / 100000000

lemma zipWith3_map_third {α β γ γ' δ : Type} (f : α → β → γ' → δ) (g : γ → γ') :
    ∀ (as : List α) (bs : List β) (cs : List γ),
      List.zipWith3 f as bs (cs.map g)
        = List.zipWith3 (fun a b c => f a b (g c)) as bs cs := by
  intro as
  induction as with
  | nil => intro bs cs; cases bs <;> cases cs <;> simp [List.zipWith3]
  | cons a as ih =>
    intro bs cs
    cases bs with
    | nil => cases cs <;> simp [List.zipWith3]
    | cons b bs =>
      cases cs with
      | nil => simp [List.zipWith3]
      | cons c cs => simp [List.zipWith3, ih]

/-- The shared computation of `gaussian_nll` and `reinforce_loss` (lines
143–146 and 167–170): slice `pred_mean_var` into mean (`take D`) and variance
(`drop D`), add `1e-8` to the variance, form the element-wise negative
log-likelihood `0.5 * (log(2π) + log(var) + (target − mean)² / var)` and sum
it over the output dimension. -/
def sample_wise_error (rlog : ℚ → ℚ) (log2pi : ℚ) (D : ℕ)
    (target pred : List ℚ) : ℚ :=
  (List.zipWith3
    (fun x mu v => 1 / 2 * (log2pi + rlog v + (x - mu) ^ 2 / v))
    target (pred.take D) ((pred.drop D).map (· + eps))).sum

/-- Model of `PiSSM.gaussian_nll`: the sample-wise error averaged over batch and time
(`tf.reduce_mean` of a `[B, T]` tensor is its sum divided by `B * T`). -/
def gaussian_nll (rlog : ℚ → ℚ) (log2pi : ℚ) (D B T : ℕ)
    (target pred : Fin B → Fin T → List ℚ) : ℚ :=
  (∑ b, ∑ t, sample_wise_error rlog log2pi D (target b t) (pred b t))
    / ((B : ℚ) * (T : ℚ))

/-- The Gaussian NLL as the spec words it: the mean over batch and time of
the sum over output dimensions of
`0.5 * (log(2π) + log(var + ε) + (target − mean)² / (var + ε))`,
with `ε = 1e-8` added to the predicted variance before both the logarithm and
the division. -/
def gaussian_nll_spec (rlog : ℚ → ℚ) (log2pi : ℚ) (D B T : ℕ)
    (target pred : Fin B → Fin T → List ℚ) : ℚ :=
  (∑ b, ∑ t,
    (List.zipWith3
      (fun x mu v => 1 / 2 * (log2pi + rlog (v + eps) + (x - mu) ^ 2 / (v + eps)))
      (target b t) ((pred b t).take D) ((pred b t).drop D)).sum)
    / ((B : ℚ) * (T : ℚ))

/-- Claim C4: `gaussian_nll` returns exactly the spec's formula: the mean over
batch and time of the per-dimension sum of
`0.5 * (log(2π) + log(var + ε) + (target − mean)² / (var + ε))` with
`ε = 1e-8` added to the predicted variance before both the logarithm and the
division; and for every nonnegative predicted variance the denominator
`var + ε` is strictly positive, so the division is never by exactly zero. -/
theorem gaussian_nll_matches_spec (rlog : ℚ → ℚ) (log2pi : ℚ) (D B T : ℕ)
    (target pred : Fin B → Fin T → List ℚ) :
    gaussian_nll rlog log2pi D B T target pred
      = gaussian_nll_spec rlog log2pi D B T target pred ∧
    eps = 1 / 100000000 ∧
    ∀ v : {x : ℚ // 0 ≤ x}, 0 < v.1 + eps := by
  refine ⟨?_, rfl, fun v => ?_⟩
  · unfold gaussian_nll gaussian_nll_spec sample_wise_error
    congr 1
    refine Finset.sum_congr rfl fun b _ => Finset.sum_congr rfl fun t _ => ?_
    rw [zipWith3_map_third]
  · have h := v.2
    have heps : (0 : ℚ) < eps := by norm_num [eps]
    linarith

/-- The REINFORCE baseline (lines 176–178): the across-batch mean of the
reward at each time step (`tf.reduce_mean(reward, axis=0)`), broadcast over
the batch by the tile. -/
def baseline (B T : ℕ) (reward : Fin B → Fin T → ℚ) (t : Fin T) : ℚ :=
  (∑ b, reward b t) / (B : ℚ)

/-- The REINFORCE-with-baseline estimator (lines 183–184):
`-(reward - baseline) * logp` averaged over batch and time. `reward` and
`baseline` are wrapped in `tf.stop_gradient`, which leaves their values
unchanged. -/
def reinforce_est (B T : ℕ) (reward logps : Fin B → Fin T → ℚ) : ℚ :=
  (∑ b, ∑ t, -(reward b t - baseline B T reward t) * logps b t)
    / ((B : ℚ) * (T : ℚ))

/-- Model of `PiSSM.reinforce_loss`: the estimator applied to the reward
`-sample_wise_error` (the negative per-step negative log-likelihood), with
`logps` the squeezed log-probability sequence. -/
def reinforce_loss (rlog : ℚ → ℚ) (log2pi : ℚ) (D B T : ℕ)
    (target pred : Fin B → Fin T → List ℚ) (logps : Fin B → Fin T → ℚ) : ℚ :=
  reinforce_est B T
    (fun b t => -(sample_wise_error rlog log2pi D (target b t) (pred b t))) logps

/-- Claim C3: `reinforce_loss` is the estimator `-(reward - baseline) * logp`
averaged over batch and time, applied to the reward
`- sample_wise_error` (the negative per-step negative log-likelihood); and
this estimator is invariant under replacing the reward by `reward + c` for
any constant `c`, because the baseline — the across-batch mean of the reward
per time step — absorbs the same constant. -/
theorem reinforce_loss_shift_invariant (rlog : ℚ → ℚ) (log2pi : ℚ) (D B T : ℕ)
    (target pred : Fin B → Fin T → List ℚ) (logps : Fin B → Fin T → ℚ) :
    reinforce_loss rlog log2pi D B T target pred logps
      = reinforce_est B T
          (fun b t => -(sample_wise_error rlog log2pi D (target b t) (pred b t)))
          logps ∧
    ∀ (reward : Fin B → Fin T → ℚ) (c : ℚ),
      reinforce_est B T (fun b t => reward b t + c) logps
        = reinforce_est B T reward logps := by
  refine ⟨rfl, fun reward c => ?_⟩
  rcases Nat.eq_zero_or_pos B with hB | hB
  · subst hB
    simp [reinforce_est]
  · have hBQ : (B : ℚ) ≠ 0 := Nat.cast_ne_zero.mpr (by omega)
    unfold reinforce_est
    congr 1
    refine Finset.sum_congr rfl fun b _ => Finset.sum_congr rfl fun t _ => ?_
    have hbase : baseline B T (fun b t => reward b t + c) t
        = baseline B T reward t + c := by
      unfold baseline
      rw [Finset.sum_add_distrib, Finset.sum_const, Finset.card_univ,
        Fintype.card_fin, nsmul_eq_mul, add_div, mul_div_cancel_left₀ _ hBQ]
    rw [hbase]
    ring

/-- The squared-error list of `rmse` (line 157): slice the prediction to its
first `output_dim` entries (`pred_mean_var[..., :output_dim]`) and square its
elementwise difference with the target. -/
def sqErrList (D : ℕ) (target pred : List ℚ) : List ℚ :=
  List.zipWith (fun p x => (p - x) ^ 2) (pred.take D) target

/-- The mean of the squared errors over every element of the `[B, T, D]`
difference tensor, as computed by `tf.reduce_mean`. -/
def rmse_mean_sq (D B T : ℕ) (target pred : Fin B → Fin T → List ℚ) : ℚ :=
  (∑ b, ∑ t, (sqErrList D (target b t) (pred b t)).sum)
    / (∑ b, ∑ t, ((sqErrList D (target b t) (pred b t)).length : ℚ))

/-- Model of `PiSSM.rmse`: the square root of the mean squared difference between the
sliced predicted mean and the target (predicted variance ignored). -/
noncomputable def rmse (D B T : ℕ) (target pred : Fin B → Fin T → List ℚ) : ℝ :=
  Real.sqrt (rmse_mean_sq D B T target pred)

/-- Claim C5: `rmse` is symmetric on every pair of tensors the function
accepts: whenever the shapes make both `rmse(a, b)` and `rmse(b, a)`
well-formed (the sliced prediction of each call matches the length of that
call's target, as TensorFlow requires of `pred_mean - target`), the two
values are equal. -/
theorem rmse_symm (D B T : ℕ) (target pred : Fin B → Fin T → List ℚ)
    (hab : ∀ b t, ((pred b t).take D).length = (target b t).length)
    (hba : ∀ b t, ((target b t).take D).length = (pred b t).length) :
    rmse D B T target pred = rmse D B T pred target := by
  have key : ∀ b t, sqErrList D (target b t) (pred b t)
      = sqErrList D (pred b t) (target b t) := by
    intro b t
    have h1 := hab b t
    have h2 := hba b t
    rw [List.length_take] at h1 h2
    unfold sqErrList
    rw [List.take_of_length_le (by omega), List.take_of_length_le (by omega)]
    exact List.zipWith_comm_of_comm _ (fun a b => by ring) _ _
  unfold rmse rmse_mean_sq
  congr 1
  simp only [key]

/-- Witness for C5: `B = T = 1`, `output_dim = 2`, target `[1, 2]` and
prediction `[3, 5]`; both orders are accepted and the two rmse values agree. -/
theorem rmse_symm_witness :
    (∀ b : Fin 1, ∀ t : Fin 1,
      (((fun _ _ => [(3 : ℚ), 5]) b t).take 2).length
        = ((fun _ _ => [(1 : ℚ), 2]) b t).length) ∧
    (∀ b : Fin 1, ∀ t : Fin 1,
      (((fun _ _ => [(1 : ℚ), 2]) b t).take 2).length
        = ((fun _ _ => [(3 : ℚ), 5]) b t).length) ∧
    rmse 2 1 1 (fun _ _ => [(1 : ℚ), 2]) (fun _ _ => [(3 : ℚ), 5])
      = rmse 2 1 1 (fun _ _ => [(3 : ℚ), 5]) (fun _ _ => [(1 : ℚ), 2]) :=
  ⟨by decide, by decide, rmse_symm 2 1 1 _ _ (by decide) (by decide)⟩

/-- The transition cells `PiSSM.__init__` can construct: the probabilistic
`PiSSMTransitionCell` ("gin"), or the `LSTMCell`/`GRUCell` baselines. -/
inductive CellKind where
  | gin : CellKind
  | lstm : CellKind
  | gru : CellKind
deriving DecidableEq

/-- The exact message of the `AssertionError` raised on line 60 of
`PiSSM.py`, as its list of characters (the `\x27` escapes are the single
quotes of the source string). -/
def invalidCellMsg : List Char :=
  "Invalid Cell type, needs tp be \x27rkn\x27, \x27lstm\x27 or \x27gru\x27".data

/-- Python's `str.lower` on the characters of `cell_type`. -/
def lowerStr (s : List Char) : List Char := s.map Char.toLower

/-- The `cell_type` dispatch of `PiSSM.__init__` (lines 45–60): lower-case
the argument, accept `gin`, `lstm` and `gru`, and raise the assertion on
anything else. -/
def selectCell (cell_type : List Char) : Except (List Char) CellKind :=
  if lowerStr cell_type = "gin".data then Except.ok CellKind.gin
  else if lowerStr cell_type = "lstm".data then Except.ok CellKind.lstm
  else if lowerStr cell_type = "gru".data then Except.ok CellKind.gru
  else Except.error invalidCellMsg

/-- Claim C7, evaluated at the failing input: constructing a `PiSSM` with any
`cell_type` outside `gin`/`lstm`/`gru` (here `"foo"`) raises the assertion,
and the three accepted values (even upper-cased) raise nothing — but the
assertion message does *not* name the allowed set: it never mentions the
accepted value `gin`, and instead names `rkn`, a value the dispatch itself
rejects. -/
theorem selectCell_message_names_wrong_set :
    selectCell "foo".data = Except.error invalidCellMsg ∧
    selectCell "gin".data = Except.ok CellKind.gin ∧
    selectCell "GIN".data = Except.ok CellKind.gin ∧
    selectCell "lstm".data = Except.ok CellKind.lstm ∧
    selectCell "gru".data = Except.ok CellKind.gru ∧
    selectCell "rkn".data = Except.error invalidCellMsg ∧
    ¬ ("gin".data <:+: invalidCellMsg) ∧
    ("rkn".data <:+: invalidCellMsg) := by
  refine ⟨rfl, rfl, rfl, rfl, rfl, rfl, by decide, by decide⟩

/-!
Embedding of the control flow of `PiSSM.training` (lines 205–301). The
TensorFlow forward/backward passes are opaque to the claims about this loop;
what the loop inspects are the two scalar losses of each `(epoch, batch)`
step and whether each is NaN, which an oracle supplies. Python local-variable
semantics are explicit: the local `loss` is `none` until its first
assignment (line 277), and reading it while `none` — as `loss_show_tr +=
loss` on line 244 does — is an `UnboundLocalError`, returned as
`Except.error "loss"`. Reading the never-defined name `Valid_Ubatch`
(line 270) is likewise `Except.error "Valid_Ubatch"`. -/

/-- Per-`(epoch, batch)` values of the tensor computations consumed by
`PiSSM.training`: the REINFORCE loss (line 243), the Gaussian NLL `phi_loss`
(line 259), and whether each evaluated to NaN. -/
structure LossOracle where
  reinforceLoss : ℕ → ℕ → ℚ
  phiLoss : ℕ → ℕ → ℚ
  rIsNan : ℕ → ℕ → Bool
  pIsNan : ℕ → ℕ → Bool

/-- The Python locals of `training` that the batch loop reads or writes:
`loss` (unassigned ⇒ `none`), the accumulator `loss_show_tr`, and the list
`Training_Loss`. -/
structure TrainLocals where
  loss : Option ℚ
  loss_show_tr : ℚ
  trainingLoss : List ℚ

/-- One iteration of the batch loop of `training` (lines 238–300) at epoch
`e`, batch index `i`. Returns the updated locals and whether the iteration
executed `break`, or the name of an unbound variable it read. `period` is
the `ratio` argument of line 295 and `bs` the batch size of line 300. -/
def batchIter (env : LossOracle) (period : ℕ) (bs : ℚ) (e i : ℕ)
    (st : TrainLocals) : Except String (TrainLocals × Bool) :=
  let rl := env.reinforceLoss e i
  match st.loss with
  | none => Except.error "loss"
  | some lossv =>
    let st1 : TrainLocals := { st with loss_show_tr := st.loss_show_tr + lossv }
    if env.rIsNan e i then Except.ok (st1, true)
    else
      let pl := env.phiLoss e i
      if env.pIsNan e i then Except.ok (st1, true)
      else if i % 10 = 0 then Except.error "Valid_Ubatch"
      else
        let total := pl + rl
        if env.rIsNan e i || env.pIsNan e i then
          Except.ok ({ st1 with loss := some total }, true)
        else
          let lossFinal := if i % (period - 1) = 0 ∧ i ≠ 0 then (0 : ℚ) else total
          Except.ok ({ loss := some lossFinal,
                       loss_show_tr := st1.loss_show_tr,
                       trainingLoss := st1.trainingLoss ++ [lossFinal / bs] },
                     false)

/-- The batch loop of epoch `e`: `k` remaining iterations starting at batch
index `i`; a `break` ends the loop without error. -/
def batchLoop (env : LossOracle) (period : ℕ) (bs : ℚ) (e : ℕ) :
    ℕ → ℕ → TrainLocals → Except String TrainLocals
  | 0, _, st => Except.ok st
  | k + 1, i, st =>
    match batchIter env period bs e i st with
    | Except.error s => Except.error s
    | Except.ok (st', true) => Except.ok st'
    | Except.ok (st', false) => batchLoop env period bs e k (i + 1) st'

/-- The epoch loop of `training`: each epoch resets `loss_show_tr` to `0`
(line 235) and runs the batch loop over all `nB` mini-batches. -/
def epochLoop (env : LossOracle) (period : ℕ) (bs : ℚ) (nB : ℕ) :
    ℕ → ℕ → TrainLocals → Except String TrainLocals
  | 0, _, st => Except.ok st
  | k + 1, e, st =>
    match batchLoop env period bs e nB 0 { st with loss_show_tr := 0 } with
    | Except.error s => Except.error s
    | Except.ok st' => epochLoop env period bs nB k (e + 1) st'

/-- Model of `PiSSM.training`: run `epochs` epochs over `nB` full mini-batches from a
state in which the local `loss` has never been assigned, and return
`Training_Loss` on normal completion. -/
def training (env : LossOracle) (epochs nB period : ℕ) (bs : ℚ) :
    Except String (List ℚ) :=
  match epochLoop env period bs nB epochs 0
      { loss := none, loss_show_tr := 0, trainingLoss := [] } with
  | Except.error s => Except.error s
  | Except.ok st => Except.ok st.trainingLoss

/-- Claim C9: with at least one epoch and one full training mini-batch, the
very first iteration reads the local `loss` (in `loss_show_tr += loss`)
before any assignment to it, so `training` stops with the name error on
`loss` and never returns a loss history — for every loss oracle, i.e. no
matter what the losses are; and even from a state whose `loss` is bound
(with no NaN at step `(0, 0)`), the periodic validation branch of batch 0
reads the never-defined name `Valid_Ubatch` and fails there. -/
theorem training_reads_unbound_loss (env : LossOracle)
    (epochs nB period : ℕ) (bs : ℚ) (st : TrainLocals) (l0 : ℚ)
    (he : 1 ≤ epochs) (hn : 1 ≤ nB) (hl : st.loss = some l0)
    (hr : env.rIsNan 0 0 = false) (hp : env.pIsNan 0 0 = false) :
    training env epochs nB period bs = Except.error "loss" ∧
    batchIter env period bs 0 0 st = Except.error "Valid_Ubatch" := by
  constructor
  · obtain ⟨e, rfl⟩ : ∃ e, epochs = e + 1 := ⟨epochs - 1, by omega⟩
    obtain ⟨m, rfl⟩ : ∃ m, nB = m + 1 := ⟨nB - 1, by omega⟩
    simp [training, epochLoop, batchLoop, batchIter]
  · simp [batchIter, hl, hr, hp]

/-- Witness for C9: one epoch, one mini-batch, `ratio = 2`, batch size 1,
an oracle with zero losses and no NaNs, and a locals state with `loss`
bound to `0`. -/
theorem training_reads_unbound_loss_witness :
    (1 ≤ 1) ∧ (1 ≤ 1) ∧
    (({ loss := some 0, loss_show_tr := 0, trainingLoss := [] } :
        TrainLocals).loss = some 0) ∧
    (({ reinforceLoss := fun _ _ => 0, phiLoss := fun _ _ => 0,
        rIsNan := fun _ _ => false, pIsNan := fun _ _ => false } :
        LossOracle).rIsNan 0 0 = false) ∧
    (({ reinforceLoss := fun _ _ => 0, phiLoss := fun _ _ => 0,
        rIsNan := fun _ _ => false, pIsNan := fun _ _ => false } :
        LossOracle).pIsNan 0 0 = false) ∧
    (training
        { reinforceLoss := fun _ _ => 0, phiLoss := fun _ _ => 0,
          rIsNan := fun _ _ => false, pIsNan := fun _ _ => false }
        1 1 2 1 = Except.error "loss" ∧
      batchIter
        { reinforceLoss := fun _ _ => 0, phiLoss := fun _ _ => 0,
          rIsNan := fun _ _ => false, pIsNan := fun _ _ => false }
        2 1 0 0 { loss := some 0, loss_show_tr := 0, trainingLoss := [] }
        = Except.error "Valid_Ubatch") :=
  ⟨by norm_num, by norm_num, rfl, rfl, rfl,
    training_reads_unbound_loss
      { reinforceLoss := fun _ _ => 0, phiLoss := fun _ _ => 0,
        rIsNan := fun _ _ => false, pIsNan := fun _ _ => false }
      1 1 2 1 { loss := some 0, loss_show_tr := 0, trainingLoss := [] } 0
      (by norm_num) (by norm_num) rfl rfl rfl⟩

/-- A loss oracle whose very first REINFORCE loss is NaN. -/
def nanEnv : LossOracle :=
  { reinforceLoss := fun _ _ => 0, phiLoss := fun _ _ => 0,
    rIsNan := fun _ _ => true, pIsNan := fun _ _ => false }

/-- Claim C8, evaluated at the failing input: when the first mini-batch's
REINFORCE loss is NaN, `training` does not stop the epoch's batch loop with
a soft `break` and move on to the next epoch: the read of the unassigned
local `loss` on line 244 precedes every NaN check, so the call aborts with a
hard name error and no loss history. -/
theorem training_nan_loss_hard_error :
    training nanEnv 1 1 2 1 = Except.error "loss" := by
  simp [training, epochLoop, batchLoop, batchIter, nanEnv]

end PiSSM
